import Mathlib

/-!
Shallow embedding of `igs2gs/igs2gs_metrics/clip_metrics copy.py` and proofs
about its components: the CLIP-variant check in `ClipSimilarity.__init__`,
the cosine-similarity matrix of `compute_all_similarities`, the image loader
`load_images_from_folder`, the ranker `find_least_similar`, and the report
printed by `main`.

Modelling conventions:
  - Python floats are idealized as exact rationals (scores handled by the
    ranker and the report) or reals (the cosine-similarity arithmetic, which
    involves square roots).
  - The N x N similarity tensor is a function `Nat → Nat → ℚ` together with
    its shape `n` (the tensor's `shape[0]`).
  - A directory is its `os.listdir` enumeration, a `List String` of
    filenames; `torchvision.io.read_image` is an abstract decoding function
    from a filename to a decoded tensor of an abstract type `Img`.
  - Fallible steps (`assert`, `torch.cat` on an empty list) return `Except`.
-/

namespace ClipMetrics

/-- Python list slicing `l[:k]` for an integer `k`: a nonnegative `k` takes
the first `k` elements; a negative `k` drops the last `|k|` elements
(clamped at zero). -/
def pySlice {α : Type} (l : List α) (k : Int) : List α :=
  if 0 ≤ k then l.take k.toNat else l.take (l.length - k.natAbs)

/-- The sort key used by `similarities.sort(key=lambda x: x[1])`: compare
entries by their score component only. -/
def leScore {α : Type} (a b : α × ℚ) : Prop := a.2 ≤ b.2

instance {α : Type} : DecidableRel (@leScore α) :=
  fun a b => inferInstanceAs (Decidable (a.2 ≤ b.2))

instance {α : Type} : IsTotal (α × ℚ) leScore :=
  ⟨fun a b => le_total a.2 b.2⟩

instance {α : Type} : IsTrans (α × ℚ) leScore :=
  ⟨fun _ _ _ h1 h2 => le_trans h1 h2⟩

/-- The double loop of `find_least_similar`, keeping the index pair:
for `i in range(n)`, for `j in range(i+1, n)`, collect `((i, j), sim[i, j])`
in enumeration order. -/
def simPairs (similarity_matrix : Nat → Nat → ℚ) (n : Nat) : List ((Nat × Nat) × ℚ) :=
  (List.range n).flatMap fun i =>
    (List.range' (i + 1) (n - (i + 1))).map fun j => ((i, j), similarity_matrix i j)

/-- The `similarities` list built by the double loop of `find_least_similar`:
for `i in range(n)`, for `j in range(i+1, n)`, collect
`((filenames[i], filenames[j]), similarity_matrix[i, j].item())` in
enumeration order. -/
def namedPairs (similarity_matrix : Nat → Nat → ℚ) (n : Nat) (filenames : List String) :
    List ((String × String) × ℚ) :=
  (List.range n).flatMap fun i =>
    (List.range' (i + 1) (n - (i + 1))).map fun j =>
      ((filenames.getD i "", filenames.getD j ""), similarity_matrix i j)

/-- `find_least_similar(similarity_matrix, filenames, top_n)`: build the
`similarities` list, sort it stably by score (Python's `list.sort` is
stable; `List.insertionSort` is its stable model), and return
`similarities[:top_n]`. `n` is `similarity_matrix.shape[0]`. -/
def find_least_similar (similarity_matrix : Nat → Nat → ℚ) (n : Nat)
    (filenames : List String) (top_n : Int) : List ((String × String) × ℚ) :=
  pySlice ((namedPairs similarity_matrix n filenames).insertionSort leScore) top_n

/-- Index-level mirror of `find_least_similar`: identical computation, but
each entry keeps its index pair `(i, j)` instead of the two filenames. -/
def find_least_similar_idx (similarity_matrix : Nat → Nat → ℚ) (n : Nat) (top_n : Int) :
    List ((Nat × Nat) × ℚ) :=
  pySlice ((simPairs similarity_matrix n).insertionSort leScore) top_n

/-- Python's `filename.endswith(suff)`: suffix test on the character
sequence of the string. -/
def pyEndsWith (s suff : String) : Bool :=
  suff.data.isSuffixOf s.data

/-- The loop of `load_images_from_folder`: walk the `os.listdir` enumeration
in order; for each filename ending in `".png"`, append the decoded image to
`images` and the filename to `filenames`; skip every other file. Returns
`(filenames, images)` in enumeration order. -/
def collectPngs {Img : Type} (read_image : String → Img) :
    List String → List String × List Img
  | [] => ([], [])
  | filename :: rest =>
    let r := collectPngs read_image rest
    if pyEndsWith filename ".png" then
      (filename :: r.1, read_image filename :: r.2)
    else r

/-- `load_images_from_folder(folder)`: collect the `.png` files, then stack
the decoded images with `torch.cat(images)`, which raises when `images` is
the empty list; the error is modelled as `Except.error ()`. -/
def load_images_from_folder {Img : Type} (listdir : List String)
    (read_image : String → Img) : Except Unit (List String × List Img) :=
  let r := collectPngs read_image listdir
  if r.2.isEmpty then Except.error () else Except.ok r

/-- The fixed tuple of supported CLIP variant names in the `assert` of
`ClipSimilarity.__init__`. -/
def supportedModels : List String :=
  ["RN50", "RN101", "RN50x4", "RN50x16", "RN50x64", "ViT-B/32", "ViT-B/16",
    "ViT-L/14", "ViT-L/14@336px"]

/-- The `self.size` dictionary lookup of `ClipSimilarity.__init__` with
default 224. -/
def modelSize (name : String) : Nat :=
  if name = "RN50x4" then 288
  else if name = "RN50x16" then 384
  else if name = "RN50x64" then 448
  else if name = "ViT-L/14@336px" then 336
  else 224

/-- `ClipSimilarity.__init__(name)` up to its configuration check: the
`assert name in (...)` raises `AssertionError` (modelled `Except.error ()`)
when `name` is outside the supported tuple; otherwise construction proceeds
and `self.size` is set. Weight loading is an external collaborator and is
not modelled. -/
def ClipSimilarity_init (name : String) : Except Unit Nat :=
  if supportedModels.contains name then Except.ok (modelSize name)
  else Except.error ()

/-- Dot product of two `d`-dimensional real vectors. -/
noncomputable def dotp {d : Nat} (u v : Fin d → ℝ) : ℝ := ∑ k, u k * v k

/-- Euclidean norm. -/
noncomputable def l2norm {d : Nat} (v : Fin d → ℝ) : ℝ := Real.sqrt (dotp v v)

/-- The `eps` default of `torch.nn.functional.cosine_similarity`, `1e-8`. -/
noncomputable def clipEps : ℝ := 1 / 100000000

/-- `F.cosine_similarity(x1, x2)` in real arithmetic:
`x1 . x2 / max(norm(x1) * norm(x2), eps)` (the documented semantics of the
torch function, idealizing floats as reals). -/
noncomputable def cosineSimilarity {d : Nat} (u v : Fin d → ℝ) : ℝ :=
  dotp u v / max (l2norm u * l2norm v) clipEps

/-- `ClipSimilarity.compute_all_similarities(image_features)`: entry
`(i, j)` of the result is the cosine similarity of features `i` and `j`
(the broadcasting `unsqueeze(1)`/`unsqueeze(0)` pairing). -/
noncomputable def compute_all_similarities {n d : Nat}
    (image_features : Fin n → Fin d → ℝ) : Fin n → Fin n → ℝ :=
  fun i j => cosineSimilarity (image_features i) (image_features j)

/-- Round a rational to the nearest integer, ties to the even integer
(the rounding of Python's fixed-point float formatting). -/
def roundHalfEven (x : ℚ) : Int :=
  let fl := ⌊x⌋
  if x - fl < 1 / 2 then fl
  else if (1 : ℚ) / 2 < x - fl then fl + 1
  else if fl % 2 = 0 then fl else fl + 1

/-- Python's `f"{score:.4f}"` idealized over exact rationals: round
`score * 10000` half-to-even, then render sign, integer part, and the
fraction part zero-padded to four digits. -/
def formatFixed4 (q : ℚ) : String :=
  let n := roundHalfEven (q * 10000)
  let sign := if q < 0 then "-" else ""
  let a := n.natAbs
  let fs := toString (a % 10000)
  sign ++ toString (a / 10000) ++ "." ++
    String.mk (List.replicate (4 - fs.length) '0') ++ fs

/-- One line of `main`'s report:
`f"Images: {file1} and {file2} have a similarity score of {score:.4f}"`. -/
def reportLine (entry : (String × String) × ℚ) : String :=
  "Images: " ++ entry.1.1 ++ " and " ++ entry.1.2 ++
    " have a similarity score of " ++ formatFixed4 entry.2

/-- The full sequence of lines printed by `main`'s final loop, one per
ranked pair, in ranked order. -/
def mainReport (pairs : List ((String × String) × ℚ)) : List String :=
  pairs.map reportLine

/-- The two fatal aborts `main` can hit in this model: the `assert` in
`ClipSimilarity.__init__`, and `torch.cat` on an empty list in
`load_images_from_folder`. -/
inductive MainError : Type
  | configError : MainError
  | emptyStack : MainError
deriving DecidableEq

/-- `main(folder_path, model_name, top_n)`: construct the embedder with
`"./models/" + model_name` (as the source does), load the images, rank, and
return the printed lines. The CLIP encoder plus `compute_all_similarities`
are abstracted into `embedSim`, a function from the loaded images to the
similarity matrix (per the spec, the pretrained model is an opaque external
collaborator); `n` is the matrix's `shape[0]`, the number of loaded
images. -/
def mainRun {Img : Type} (embedSim : List Img → Nat → Nat → ℚ)
    (listdir : List String) (read_image : String → Img)
    (model_name : String) (top_n : Int) : Except MainError (List String) :=
  match ClipSimilarity_init ("./models/" ++ model_name) with
  | Except.error _ => Except.error MainError.configError
  | Except.ok _ =>
    match load_images_from_folder listdir read_image with
    | Except.error _ => Except.error MainError.emptyStack
    | Except.ok (filenames, images) =>
      let similarity_matrix := embedSim images
      Except.ok (mainReport (find_least_similar similarity_matrix images.length
        filenames top_n))

/-- Replace each index pair of a ranker entry by the corresponding pair of
filenames, keeping the score. -/
def nameEntry (filenames : List String) (e : (Nat × Nat) × ℚ) : (String × String) × ℚ :=
  ((filenames.getD e.1.1 "", filenames.getD e.1.2 ""), e.2)

lemma sum_map_range (f : Nat → Nat) (n : Nat) :
    ((List.range n).map f).sum = ∑ i ∈ Finset.range n, f i := by
  induction n with
  | zero => simp
  | succ m ih =>
    rw [List.range_succ, List.map_append, List.sum_append, Finset.sum_range_succ, ih]
    simp

lemma length_simPairs (sim : Nat → Nat → ℚ) (n : Nat) :
    (simPairs sim n).length = n * (n - 1) / 2 := by
  rw [simPairs, List.length_flatMap]
  have h1 : (List.map (List.length ∘ fun i =>
        (List.range' (i + 1) (n - (i + 1))).map fun j => ((i, j), sim i j))
        (List.range n)) = (List.range n).map fun i => n - (i + 1) := by
    simp [Function.comp_def]
  rw [h1, sum_map_range]
  have h2 : ∑ i ∈ Finset.range n, (n - (i + 1)) = ∑ i ∈ Finset.range n, i := by
    rw [← Finset.sum_range_reflect (fun j => j) n]
    exact Finset.sum_congr rfl fun i hi => by
      have := Finset.mem_range.mp hi
      omega
  have h3 := Finset.sum_range_id_mul_two n
  omega

lemma mem_simPairs_bounds {sim : Nat → Nat → ℚ} {n : Nat} {p : (Nat × Nat) × ℚ}
    (hp : p ∈ simPairs sim n) :
    p.1.1 < p.1.2 ∧ p.1.2 < n ∧ p.2 = sim p.1.1 p.1.2 := by
  simp only [simPairs, List.mem_flatMap, List.mem_map, List.mem_range,
    List.mem_range'_1] at hp
  obtain ⟨i, hi, j, hj, rfl⟩ := hp
  dsimp only
  exact ⟨by omega, by omega, rfl⟩

lemma mem_simPairs_of_lt {sim : Nat → Nat → ℚ} {n i j : Nat}
    (hij : i < j) (hj : j < n) : ((i, j), sim i j) ∈ simPairs sim n := by
  simp only [simPairs, List.mem_flatMap, List.mem_map, List.mem_range,
    List.mem_range'_1]
  exact ⟨i, by omega, j, ⟨by omega, by omega⟩, rfl⟩

lemma nodup_fst_simPairs (sim : Nat → Nat → ℚ) (n : Nat) :
    ((simPairs sim n).map Prod.fst).Nodup := by
  have heq : (simPairs sim n).map Prod.fst
      = (List.range n).flatMap fun i =>
          (List.range' (i + 1) (n - (i + 1))).map fun j => (i, j) := by
    simp [simPairs, List.map_flatMap, List.map_map, Function.comp_def]
  rw [heq, List.nodup_flatMap]
  constructor
  · intro i _
    exact List.Nodup.map (fun a b hab => congrArg Prod.snd hab)
      (List.nodup_range' (i + 1) (n - (i + 1)))
  · have hlt : (List.range n).Pairwise (· < ·) := List.pairwise_lt_range n
    refine hlt.imp fun {a b} hab => ?_
    intro x hxa hxb
    simp only [List.mem_map] at hxa hxb
    obtain ⟨j1, _, rfl⟩ := hxa
    obtain ⟨j2, _, h2⟩ := hxb
    have hfst : a = b := congrArg Prod.fst h2.symm
    omega

lemma namedPairs_eq_map (sim : Nat → Nat → ℚ) (n : Nat) (filenames : List String) :
    namedPairs sim n filenames = (simPairs sim n).map (nameEntry filenames) := by
  simp [namedPairs, simPairs, List.map_flatMap, List.map_map, Function.comp_def,
    nameEntry]

lemma orderedInsert_map_sndPreserving {α β : Type} (g : α → β) (a : α × ℚ)
    (l : List (α × ℚ)) :
    List.orderedInsert leScore (g a.1, a.2) (l.map fun e => (g e.1, e.2))
      = (List.orderedInsert leScore a l).map fun e => (g e.1, e.2) := by
  induction l with
  | nil => rfl
  | cons b t ih =>
    by_cases h : a.2 ≤ b.2
    · simp [List.orderedInsert, leScore, h]
    · simp [List.orderedInsert, leScore, h, ih]

lemma insertionSort_map_sndPreserving {α β : Type} (g : α → β) (l : List (α × ℚ)) :
    (l.map fun e => (g e.1, e.2)).insertionSort leScore
      = (l.insertionSort leScore).map fun e => (g e.1, e.2) := by
  induction l with
  | nil => rfl
  | cons a t ih =>
    simp only [List.map_cons, List.insertionSort, ih]
    exact orderedInsert_map_sndPreserving g a (t.insertionSort leScore)

lemma filter_score_orderedInsert {α : Type} (s : ℚ) (a : α × ℚ) (l : List (α × ℚ)) :
    (List.orderedInsert leScore a l).filter (fun x => decide (x.2 = s))
      = if a.2 = s then a :: l.filter (fun x => decide (x.2 = s))
        else l.filter (fun x => decide (x.2 = s)) := by
  induction l with
  | nil =>
    by_cases h : a.2 = s <;> simp [List.orderedInsert, List.filter, h]
  | cons b t ih =>
    by_cases hab : leScore a b
    · have hstep : List.orderedInsert leScore a (b :: t) = a :: b :: t := by
        simp [List.orderedInsert, hab]
      rw [hstep]
      by_cases ha : a.2 = s <;> simp [List.filter_cons, ha]
    · have hstep : List.orderedInsert leScore a (b :: t)
          = b :: List.orderedInsert leScore a t := by
        simp [List.orderedInsert, hab]
      have hab' : ¬ a.2 ≤ b.2 := hab
      rw [hstep]
      simp only [List.filter_cons, ih]
      by_cases ha : a.2 = s
      · have hbs : ¬ b.2 = s := fun h => hab' (le_of_eq (ha.trans h.symm))
        simp [ha, hbs, List.filter_cons]
      · by_cases hb : b.2 = s <;> simp [ha, hb, List.filter_cons]

lemma filter_score_insertionSort {α : Type} (s : ℚ) (l : List (α × ℚ)) :
    (l.insertionSort leScore).filter (fun x => decide (x.2 = s))
      = l.filter (fun x => decide (x.2 = s)) := by
  induction l with
  | nil => rfl
  | cons a t ih =>
    rw [List.insertionSort, filter_score_orderedInsert, ih, List.filter_cons]
    by_cases h : a.2 = s <;> simp [h]

lemma pySlice_nonneg {α : Type} {k : Int} (hk : 0 ≤ k) (l : List α) :
    pySlice l k = l.take k.toNat := by
  simp [pySlice, hk]

lemma pySlice_neg {α : Type} {k : Int} (hk : k < 0) (l : List α) :
    pySlice l k = l.take (l.length - k.natAbs) := by
  simp [pySlice, not_le.mpr hk]

lemma length_namedPairs (sim : Nat → Nat → ℚ) (n : Nat) (filenames : List String) :
    (namedPairs sim n filenames).length = n * (n - 1) / 2 := by
  rw [namedPairs_eq_map, List.length_map, length_simPairs]

lemma sort_namedPairs_eq (sim : Nat → Nat → ℚ) (n : Nat) (filenames : List String) :
    (namedPairs sim n filenames).insertionSort leScore
      = ((simPairs sim n).insertionSort leScore).map (nameEntry filenames) := by
  rw [namedPairs_eq_map]
  have hne : nameEntry filenames = fun e : (Nat × Nat) × ℚ =>
      ((fun p : Nat × Nat => (filenames.getD p.1 "", filenames.getD p.2 "")) e.1, e.2) :=
    rfl
  rw [hne]
  exact insertionSort_map_sndPreserving
    (fun p : Nat × Nat => (filenames.getD p.1 "", filenames.getD p.2 "")) (simPairs sim n)

/-- C1: for every `n x n` similarity matrix, list of `n` filenames and
positive `top_n`, `find_least_similar` returns exactly
`min(top_n, n*(n-1)/2)` entries; the output is the filename rendering of an
index-level slice in which each pair `(i, j)` has `i < j < n` and carries
score `matrix[i][j]`, each unordered pair appears at most once (`Nodup` of
the index pairs), the output is sorted ascending by score, ties keep the
original enumeration order (the sorted enumeration filtered to any fixed
score equals the raw enumeration so filtered), if `top_n` covers all
`n*(n-1)/2` pairs then every pair `i < j < n` is returned, and if `n < 2`
the result is empty. -/
theorem ranker_contract (similarity_matrix : Nat → Nat → ℚ) (n : Nat)
    (filenames : List String) (top_n : Int) (htop : 0 < top_n)
    (hlen : filenames.length = n) :
    (find_least_similar similarity_matrix n filenames top_n).length
        = min top_n.toNat (n * (n - 1) / 2) ∧
    List.Sorted leScore (find_least_similar similarity_matrix n filenames top_n) ∧
    find_least_similar similarity_matrix n filenames top_n
        = (find_least_similar_idx similarity_matrix n top_n).map (nameEntry filenames) ∧
    ((find_least_similar_idx similarity_matrix n top_n).map Prod.fst).Nodup ∧
    (∀ p ∈ find_least_similar_idx similarity_matrix n top_n,
        p.1.1 < p.1.2 ∧ p.1.2 < n ∧ p.2 = similarity_matrix p.1.1 p.1.2) ∧
    (∀ s : ℚ,
        ((simPairs similarity_matrix n).insertionSort leScore).filter
            (fun x => decide (x.2 = s))
          = (simPairs similarity_matrix n).filter (fun x => decide (x.2 = s))) ∧
    (n * (n - 1) / 2 ≤ top_n.toNat → ∀ i j : Nat, i < j → j < n →
        ((i, j), similarity_matrix i j)
          ∈ find_least_similar_idx similarity_matrix n top_n) ∧
    (n < 2 → find_least_similar similarity_matrix n filenames top_n = []) := by
  have h0 : (0 : Int) ≤ top_n := le_of_lt htop
  set S := (simPairs similarity_matrix n).insertionSort leScore with hS
  have hidx : find_least_similar_idx similarity_matrix n top_n = S.take top_n.toNat :=
    pySlice_nonneg h0 _
  have hmapS : (namedPairs similarity_matrix n filenames).insertionSort leScore
      = S.map (nameEntry filenames) := sort_namedPairs_eq _ _ _
  have hname : find_least_similar similarity_matrix n filenames top_n
      = (S.map (nameEntry filenames)).take top_n.toNat := by
    rw [find_least_similar, pySlice_nonneg h0, hmapS]
  have hSlen : S.length = n * (n - 1) / 2 := by
    rw [hS, List.length_insertionSort, length_simPairs]
  have hperm : S.Perm (simPairs similarity_matrix n) := List.perm_insertionSort _ _
  have hsorted : List.Sorted leScore S := List.sorted_insertionSort _ _
  refine ⟨?_, ?_, ?_, ?_, ?_, ?_, ?_, ?_⟩
  · rw [hname, List.length_take, List.length_map, hSlen]
  · rw [hname, ← List.map_take]
    have hst : List.Sorted leScore (S.take top_n.toNat) :=
      List.Pairwise.sublist (List.take_sublist _ _) hsorted
    have himp : List.Pairwise (fun a b =>
        leScore (nameEntry filenames a) (nameEntry filenames b))
        (S.take top_n.toNat) := hst.imp (fun h => h)
    exact List.pairwise_map.mpr himp
  · rw [hname, hidx, List.map_take]
  · rw [hidx]
    have hnd : (S.map Prod.fst).Nodup :=
      ((hperm.map Prod.fst).symm).nodup (nodup_fst_simPairs _ _)
    rw [List.map_take]
    exact List.Sublist.nodup (List.take_sublist _ _) hnd
  · intro p hp
    rw [hidx] at hp
    exact mem_simPairs_bounds (hperm.subset ((List.take_sublist _ _).subset hp))
  · intro s
    exact filter_score_insertionSort s _
  · intro hbig i j hij hjn
    rw [hidx, List.take_of_length_le (by rw [hSlen]; exact hbig)]
    exact hperm.mem_iff.mpr (mem_simPairs_of_lt hij hjn)
  · intro hn2
    have h01 : n = 0 ∨ n = 1 := by omega
    have hzero : n * (n - 1) / 2 = 0 := by rcases h01 with rfl | rfl <;> rfl
    rw [← List.length_eq_zero, hname, List.length_take, List.length_map, hSlen, hzero]
    simp

/-- Witness for C1 at `n = 3`, integer-valued scores and `top_n = 2`. -/
theorem ranker_contract_witness :
    (0 : Int) < 2 ∧ (["A", "B", "C"] : List String).length = 3 ∧
    (find_least_similar (fun i j => (i * 10 + j : ℚ)) 3 ["A", "B", "C"] 2).length
        = min (Int.toNat 2) (3 * (3 - 1) / 2) ∧
    List.Sorted leScore
      (find_least_similar (fun i j => (i * 10 + j : ℚ)) 3 ["A", "B", "C"] 2) ∧
    find_least_similar (fun i j => (i * 10 + j : ℚ)) 3 ["A", "B", "C"] 2
        = (find_least_similar_idx (fun i j => (i * 10 + j : ℚ)) 3 2).map
            (nameEntry ["A", "B", "C"]) ∧
    ((find_least_similar_idx (fun i j => (i * 10 + j : ℚ)) 3 2).map Prod.fst).Nodup :=
  have h := ranker_contract (fun i j => (i * 10 + j : ℚ)) 3 ["A", "B", "C"] 2
    (by decide) (by decide)
  ⟨by decide, by decide, h.1, h.2.1, h.2.2.1, h.2.2.2.1⟩

/-- The similarity matrix of the spec's 3-image scenario: images `A, B, C`
in enumeration order with `sim(A,B) = 0.9 = 9/10`, `sim(A,C) = 0.2 = 1/5`,
`sim(B,C) = 0.5 = 1/2` (entries outside the strict upper triangle are never
read by the ranker). -/
def simABC : Nat → Nat → ℚ := fun i j =>
  if i = 0 ∧ j = 1 then 9 / 10
  else if i = 0 ∧ j = 2 then 1 / 5
  else if i = 1 ∧ j = 2 then 1 / 2
  else 0

/-- C5: on the 3-image scenario with `top_n = 2` the ranker returns exactly
`[(A, C, 0.2), (B, C, 0.5)]` in that order, and with `top_n = 10` it
returns all 3 pairs sorted ascending without error. -/
theorem ranker_scenario :
    find_least_similar simABC 3 ["A", "B", "C"] 2
        = [(("A", "C"), 1 / 5), (("B", "C"), 1 / 2)] ∧
    find_least_similar simABC 3 ["A", "B", "C"] 10
        = [(("A", "C"), 1 / 5), (("B", "C"), 1 / 2), (("A", "B"), 9 / 10)] := by
  constructor
  · norm_num [find_least_similar, namedPairs, simABC, pySlice, leScore,
      List.range_succ, List.range', List.insertionSort, List.orderedInsert]
    rfl
  · norm_num [find_least_similar, namedPairs, simABC, pySlice, leScore,
      List.range_succ, List.range', List.insertionSort, List.orderedInsert]

/-- C9: outside the positive-`top_n` precondition `find_least_similar`
still returns without error: `top_n = 0` yields the empty list, and a
negative `top_n` returns the ascending-sorted pair list with its
`|top_n|` highest-similarity tail entries removed (Python slice
semantics). -/
theorem ranker_nonpositive_topn (similarity_matrix : Nat → Nat → ℚ) (n : Nat)
    (filenames : List String) (top_n : Int) (htop : top_n ≤ 0) :
    (top_n = 0 → find_least_similar similarity_matrix n filenames top_n = []) ∧
    (top_n < 0 →
      (find_least_similar similarity_matrix n filenames top_n).length
          = n * (n - 1) / 2 - top_n.natAbs ∧
      ∃ removed : List ((String × String) × ℚ),
        (namedPairs similarity_matrix n filenames).insertionSort leScore
            = find_least_similar similarity_matrix n filenames top_n ++ removed ∧
        removed.length = min top_n.natAbs (n * (n - 1) / 2) ∧
        ∀ x ∈ find_least_similar similarity_matrix n filenames top_n,
          ∀ y ∈ removed, x.2 ≤ y.2) := by
  set S := (namedPairs similarity_matrix n filenames).insertionSort leScore with hS
  have hSlen : S.length = n * (n - 1) / 2 := by
    rw [hS, List.length_insertionSort, length_namedPairs]
  have hsorted : List.Sorted leScore S := List.sorted_insertionSort _ _
  constructor
  · intro h0
    subst h0
    rw [find_least_similar, pySlice_nonneg le_rfl]
    simp
  · intro hneg
    have heq : find_least_similar similarity_matrix n filenames top_n
        = S.take (S.length - top_n.natAbs) := by
      rw [find_least_similar, pySlice_neg hneg]
    refine ⟨?_, S.drop (S.length - top_n.natAbs), ?_, ?_, ?_⟩
    · rw [heq, List.length_take, hSlen]
      exact inf_eq_left.mpr (Nat.sub_le _ _)
    · rw [heq]
      exact (List.take_append_drop _ _).symm
    · rw [List.length_drop, hSlen, Nat.min_def]
      split_ifs <;> omega
    · intro x hx y hy
      rw [heq] at hx
      exact hsorted.rel_of_mem_take_of_mem_drop hx hy

/-- Witness for C9 at `n = 2` and `top_n = -1`. -/
theorem ranker_nonpositive_topn_witness :
    (-1 : Int) ≤ 0 ∧
    (find_least_similar (fun _ _ => (0 : ℚ)) 2 ["a", "b"] (-1)).length
        = 2 * (2 - 1) / 2 - (-1 : Int).natAbs :=
  ⟨by decide,
    ((ranker_nonpositive_topn (fun _ _ => (0 : ℚ)) 2 ["a", "b"] (-1)
      (by decide)).2 (by decide)).1⟩

/-- C10: the ranker reads only the strict upper triangle of the similarity
matrix: two matrices of the same shape that agree on every entry `(i, j)`
with `i < j < n` give identical results for the same filename list and
`top_n`. -/
theorem ranker_upper_triangle_only (n : Nat) (sim1 sim2 : Nat → Nat → ℚ)
    (filenames : List String) (top_n : Int)
    (hagree : ∀ i j : Nat, i < j → j < n → sim1 i j = sim2 i j) :
    find_least_similar sim1 n filenames top_n
      = find_least_similar sim2 n filenames top_n := by
  have hpairs : namedPairs sim1 n filenames = namedPairs sim2 n filenames := by
    rw [namedPairs, namedPairs]
    refine List.flatMap_congr fun i hi => ?_
    refine List.map_congr_left fun j hj => ?_
    rw [List.mem_range] at hi
    rw [List.mem_range'_1] at hj
    rw [hagree i j (by omega) (by omega)]
  rw [find_least_similar, find_least_similar, hpairs]

/-- Witness for C10: a zero matrix against a matrix that differs only on
the diagonal gives the same ranker output. -/
theorem ranker_upper_triangle_only_witness :
    find_least_similar (fun _ _ => (0 : ℚ)) 2 ["a", "b"] 3
      = find_least_similar (fun i j => if i = j then 99 else 0) 2 ["a", "b"] 3 :=
  ranker_upper_triangle_only 2 (fun _ _ => (0 : ℚ))
    (fun i j => if i = j then 99 else 0) ["a", "b"] 3
    (fun i j hij _ => by simp [Nat.ne_of_lt hij])

lemma collectPngs_fst_eq_filter {Img : Type} (read_image : String → Img)
    (listdir : List String) :
    (collectPngs read_image listdir).1
      = listdir.filter (fun s => pyEndsWith s ".png") := by
  induction listdir with
  | nil => rfl
  | cons a t ih =>
    by_cases h : pyEndsWith a ".png" <;>
      simp [collectPngs, List.filter_cons, h, ih]

lemma collectPngs_snd_eq_map {Img : Type} (read_image : String → Img)
    (listdir : List String) :
    (collectPngs read_image listdir).2
      = (collectPngs read_image listdir).1.map read_image := by
  induction listdir with
  | nil => rfl
  | cons a t ih =>
    by_cases h : pyEndsWith a ".png" <;> simp [collectPngs, h, ih]

/-- C7: the loader's collection loop keeps exactly the files whose name
ends with `".png"`, in enumeration order: the recorded filenames are the
`endswith(".png")` filter of the directory listing, each such file is
decoded, and files with any other extension are skipped without error (the
loop is total); whenever `load_images_from_folder` returns, its filename
sequence is exactly that filter. -/
theorem loader_filters_png {Img : Type} (listdir : List String)
    (read_image : String → Img) :
    (collectPngs read_image listdir).1
        = listdir.filter (fun s => pyEndsWith s ".png") ∧
    (collectPngs read_image listdir).2
        = (listdir.filter (fun s => pyEndsWith s ".png")).map read_image ∧
    (∀ (filenames : List String) (images : List Img),
      load_images_from_folder listdir read_image = Except.ok (filenames, images) →
        filenames = listdir.filter (fun s => pyEndsWith s ".png")) := by
  refine ⟨collectPngs_fst_eq_filter read_image listdir, by
    rw [collectPngs_snd_eq_map, collectPngs_fst_eq_filter], ?_⟩
  intro filenames images h
  by_cases hE : (collectPngs read_image listdir).2.isEmpty
  · simp [load_images_from_folder, hE] at h
  · simp only [load_images_from_folder, hE, Bool.false_eq_true, if_false,
      Except.ok.injEq] at h
    have hfst : filenames = (collectPngs read_image listdir).1 := by rw [h]
    rw [hfst, collectPngs_fst_eq_filter]

/-- Witness for C7 on a directory with two `.png` files and one `.txt`
file. -/
theorem loader_filters_png_witness :
    (collectPngs (fun s : String => s) ["a.png", "b.txt", "c.png"]).1
        = (["a.png", "b.txt", "c.png"] : List String).filter
            (fun s => pyEndsWith s ".png") ∧
    (["a.png", "c.png"] : List String)
        = (["a.png", "b.txt", "c.png"] : List String).filter
            (fun s => pyEndsWith s ".png") :=
  ⟨(loader_filters_png ["a.png", "b.txt", "c.png"] (fun s : String => s)).1,
    (loader_filters_png ["a.png", "b.txt", "c.png"] (fun s : String => s)).2.2
      ["a.png", "c.png"] ["a.png", "c.png"] (by rfl)⟩

/-- C6: whenever `load_images_from_folder` returns, the two returned
sequences are aligned: same length, and the `i`-th image is the decoded
content of the `i`-th filename (`images = filenames.map read_image`); the
filename sequence follows the directory enumeration order (it is a sublist
of `os.listdir`). -/
theorem loader_alignment {Img : Type} (listdir : List String)
    (read_image : String → Img) (filenames : List String) (images : List Img)
    (h : load_images_from_folder listdir read_image
        = Except.ok (filenames, images)) :
    images.length = filenames.length ∧
    images = filenames.map read_image ∧
    List.Sublist filenames listdir := by
  have hcol : collectPngs read_image listdir = (filenames, images) := by
    by_cases hE : (collectPngs read_image listdir).2.isEmpty
    · simp [load_images_from_folder, hE] at h
    · simp only [load_images_from_folder, hE, if_neg, Bool.false_eq_true,
        not_false_eq_true, if_false, Except.ok.injEq] at h
      exact h
  have h1 : filenames = (collectPngs read_image listdir).1 := by rw [hcol]
  have h2 : images = (collectPngs read_image listdir).2 := by rw [hcol]
  refine ⟨?_, ?_, ?_⟩
  · rw [h1, h2, collectPngs_snd_eq_map, List.length_map]
  · rw [h1, h2, collectPngs_snd_eq_map]
  · rw [h1, collectPngs_fst_eq_filter]
    exact List.filter_sublist _

/-- Witness for C6 on a directory with two `.png` files and one other
file, decoding modelled by the identity. -/
theorem loader_alignment_witness :
    load_images_from_folder ["a.png", "b.txt", "c.png"] (fun s => s)
        = Except.ok (["a.png", "c.png"], ["a.png", "c.png"]) ∧
    (["a.png", "c.png"] : List String).length
        = (["a.png", "c.png"] : List String).length ∧
    (["a.png", "c.png"] : List String)
        = (["a.png", "c.png"] : List String).map (fun s => s) ∧
    List.Sublist ["a.png", "c.png"] ["a.png", "b.txt", "c.png"] :=
  have h : load_images_from_folder ["a.png", "b.txt", "c.png"] (fun s : String => s)
      = Except.ok (["a.png", "c.png"], ["a.png", "c.png"]) := by rfl
  ⟨h, (loader_alignment _ _ _ _ h).1, (loader_alignment _ _ _ _ h).2.1,
    (loader_alignment _ _ _ _ h).2.2⟩

/-- C2 counterexample: on a folder with zero images the pipeline does not
complete with empty output; `main` aborts with an error (the embedder
construction fails first under the source's `"./models/"` prefix). -/
theorem main_empty_folder_errors :
    mainRun (fun _ : List Unit => fun _ _ => (0 : ℚ)) ([] : List String)
        (fun _ => ()) "ViT-L/14" 3 = Except.error MainError.configError ∧
    mainRun (fun _ : List Unit => fun _ _ => (0 : ℚ)) ([] : List String)
        (fun _ => ()) "ViT-L/14" 3 ≠ Except.ok [] :=
  ⟨rfl, fun h => Except.noConfusion h⟩

/-- C2 amended: with zero images of the target extension the pipeline does
not produce empty output but aborts with an error: independently of the
embedder bug, `load_images_from_folder` itself fails at the zero-tensor
stack (`torch.cat` of an empty list) whenever no filename matches. -/
theorem loader_empty_stack_error {Img : Type} (listdir : List String)
    (read_image : String → Img)
    (h : listdir.filter (fun s => pyEndsWith s ".png") = []) :
    load_images_from_folder listdir read_image = Except.error () := by
  have h1 : (collectPngs read_image listdir).2 = [] := by
    rw [collectPngs_snd_eq_map, collectPngs_fst_eq_filter, h]
    rfl
  simp [load_images_from_folder, h1]

/-- Witness for the amended C2: a folder holding only `"x.jpg"`. -/
theorem loader_empty_stack_error_witness :
    (["x.jpg"] : List String).filter (fun s => pyEndsWith s ".png") = [] ∧
    load_images_from_folder ["x.jpg"] (fun _ => ()) = Except.error () :=
  ⟨by decide, loader_empty_stack_error ["x.jpg"] (fun _ => ()) (by decide)⟩

lemma models_path_not_supported (model_name : String) :
    supportedModels.contains ("./models/" ++ model_name) = false := by
  have hhead : (("./models/" ++ model_name).data).head? = some '.' := by
    rw [String.data_append]
    rfl
  by_contra hc
  rw [Bool.not_eq_false] at hc
  have hmem : ("./models/" ++ model_name) ∈ supportedModels := by simpa using hc
  simp only [supportedModels, List.mem_cons, List.not_mem_nil, or_false] at hmem
  rcases hmem with h | h | h | h | h | h | h | h | h <;>
    (rw [h] at hhead; exact absurd hhead (by decide))

/-- C3: the configuration check of `ClipSimilarity.__init__` fails exactly
for names outside the fixed supported set; but `main` constructs the
embedder with `"./models/" + model_name`, a string never in the supported
set, so for every `model_name` — in particular the default supported name
`"ViT-L/14"` — the check fails when `main` runs and the pipeline aborts at
construction. -/
theorem init_check_and_main_name_mismatch :
    (∀ name : String, ClipSimilarity_init name = Except.error ()
        ↔ supportedModels.contains name = false) ∧
    (∀ model_name : String,
        ClipSimilarity_init ("./models/" ++ model_name) = Except.error ()) ∧
    ClipSimilarity_init ("./models/" ++ "ViT-L/14") = Except.error () ∧
    mainRun (fun _ : List Unit => fun _ _ => (0 : ℚ)) ["a.png"] (fun _ => ())
        "ViT-L/14" 3 = Except.error MainError.configError := by
  refine ⟨?_, ?_, rfl, rfl⟩
  · intro name
    unfold ClipSimilarity_init
    by_cases h : supportedModels.contains name <;> simp [h]
  · intro model_name
    unfold ClipSimilarity_init
    rw [models_path_not_supported]
    rfl

/-- C4: for every batch of unit-normalized feature vectors (squared norm 1,
hence nonzero), the matrix of `compute_all_similarities` is symmetric and
its diagonal entries equal 1 exactly in this real-arithmetic idealization
(hence within any floating-point tolerance). -/
theorem similarity_matrix_sym_diag {n d : Nat} (image_features : Fin n → Fin d → ℝ)
    (hunit : ∀ i, dotp (image_features i) (image_features i) = 1) :
    (∀ i j, compute_all_similarities image_features i j
        = compute_all_similarities image_features j i) ∧
    (∀ i, compute_all_similarities image_features i i = 1) := by
  have hdot : ∀ u v : Fin d → ℝ, dotp u v = dotp v u := fun u v => by
    unfold dotp
    exact Finset.sum_congr rfl fun k _ => mul_comm _ _
  constructor
  · intro i j
    unfold compute_all_similarities cosineSimilarity
    rw [hdot (image_features i) (image_features j),
      mul_comm (l2norm (image_features i)) (l2norm (image_features j))]
  · intro i
    unfold compute_all_similarities cosineSimilarity l2norm
    rw [hunit i, Real.sqrt_one, one_mul, max_eq_left (by unfold clipEps; norm_num)]
    norm_num

/-- Two orthonormal feature vectors used by the C4 witness. -/
noncomputable def featW : Fin 2 → Fin 2 → ℝ :=
  fun i j => if i = j then 1 else 0

lemma featW_unit : ∀ i, dotp (featW i) (featW i) = 1 := by
  intro i
  fin_cases i <;> norm_num [dotp, featW, Fin.sum_univ_two]

/-- Witness for C4 on the two-vector orthonormal batch. -/
theorem similarity_matrix_sym_diag_witness :
    compute_all_similarities featW 0 1 = compute_all_similarities featW 1 0 ∧
    compute_all_similarities featW 0 0 = 1 :=
  ⟨(similarity_matrix_sym_diag featW featW_unit).1 0 1,
    (similarity_matrix_sym_diag featW featW_unit).2 0⟩

/-- C8: the driver's report holds exactly one line per ranked pair, in
ranked order, and the `i`-th line is
`"Images: " ++ name1 ++ " and " ++ name2 ++ " have a similarity score of "`
followed by the score formatted to 4 decimal places. -/
theorem report_format (pairs : List ((String × String) × ℚ)) :
    (mainReport pairs).length = pairs.length ∧
    ∀ i : Nat, i < pairs.length →
      (mainReport pairs).getD i ""
        = "Images: " ++ (pairs.getD i (("", ""), 0)).1.1 ++ " and "
            ++ (pairs.getD i (("", ""), 0)).1.2 ++ " have a similarity score of "
            ++ formatFixed4 (pairs.getD i (("", ""), 0)).2 := by
  constructor
  · simp [mainReport]
  · intro i hi
    have h1 : i < (mainReport pairs).length := by simpa [mainReport] using hi
    rw [List.getD_eq_getElem _ _ h1, List.getD_eq_getElem _ _ hi]
    simp [mainReport, reportLine]

/-- Witness for C8 on a single ranked pair with score `0.2`, including the
fully rendered line. -/
theorem report_format_witness :
    (0 : Nat) < 1 ∧
    (mainReport [(("a.png", "b.png"), 1 / 5)]).getD 0 ""
        = "Images: " ++ "a.png" ++ " and " ++ "b.png"
            ++ " have a similarity score of " ++ formatFixed4 (1 / 5) ∧
    formatFixed4 (1 / 5) = "0.2000" :=
  ⟨by decide, (report_format [(("a.png", "b.png"), 1 / 5)]).2 0 (by decide),
    by norm_num [formatFixed4, roundHalfEven]; decide⟩

end ClipMetrics

